import Mathlib

/-!
Verification of the Natalie runtime's bignum object core
(include/natalie/bignum_object.hpp and src/main.cpp) against its
natural-language specification.

The arbitrary-precision kernel (BigInt) is external to the excerpt; its
values are embedded as unbounded integers, matching the specification's
description of the kernel as a correct big-integer primitive.
-/

namespace Natalie

/-- Modelled from the spec: NAT_INT_MAX, the upper bound of the native
machine-word signed range (64-bit), used by BignumObject::MAX_INT.
The macro definition is outside the excerpt. -/
def MAX_INT : ℤ := 9223372036854775807

/-- Modelled from the spec: NAT_INT_MIN, the lower bound of the native
machine-word signed range (64-bit), used by BignumObject::MIN_INT. -/
def MIN_INT : ℤ := -9223372036854775808

/-- Embedding of BignumObject::has_to_be_bignum:
return MAX_INT < value or value < MIN_INT. -/
def has_to_be_bignum (b : ℤ) : Bool :=
  decide (MAX_INT < b) || decide (b < MIN_INT)

/-- C1: has_to_be_bignum is true exactly when the kernel value lies
strictly outside the Compact range from MIN_INT to MAX_INT. -/
theorem has_to_be_bignum_iff_outside_range (b : ℤ) :
    has_to_be_bignum b = true ↔ ¬ (MIN_INT ≤ b ∧ b ≤ MAX_INT) := by
  simp only [has_to_be_bignum, Bool.or_eq_true, decide_eq_true_eq, MAX_INT, MIN_INT]
  omega

/-- Helper for decimal rendering: structural recursion on a fuel argument,
producing the base-10 digits of a natural number, least significant first. -/
def nat_digits_aux : ℕ → ℕ → List ℕ
  | 0, _ => []
  | _ + 1, 0 => []
  | fuel + 1, n + 1 => ((n + 1) % 10) :: nat_digits_aux fuel ((n + 1) / 10)

/-- Base-10 digits of a natural number, least significant first. -/
def nat_digits (n : ℕ) : List ℕ := nat_digits_aux n n

/-- Canonical decimal rendering of a natural number. -/
def nat_decimal (n : ℕ) : String :=
  if n = 0 then "0" else String.mk (((nat_digits n).map Nat.digitChar).reverse)

/-- Modelled from the spec: BigInt::to_string, the canonical base-10 string
form of the kernel value (sign followed by decimal digits); the kernel's
rendering code is outside the excerpt. -/
def big_to_string (b : ℤ) : String :=
  if b < 0 then "-" ++ nat_decimal b.natAbs else nat_decimal b.natAbs

/-- Embedding of String::last_char on the kernel-rendered string:
the last character, or the NUL character on an empty string. -/
def last_char (s : String) : Char := s.data.getLastD (Char.ofNat 0)

/-- Embedding of BignumObject::is_odd: if the rendered string is nonempty,
subtract the code of the zero digit from the last character and test the
remainder modulo 2 under C truncated division; otherwise return true. -/
def is_odd (b : ℤ) : Bool :=
  if (big_to_string b).length ≠ 0 then
    decide (((((last_char (big_to_string b)).toNat : ℤ) - 48).tmod 2) ≠ 0)
  else true

theorem nat_digits_head (n : ℕ) (h : 0 < n) : (nat_digits n).head? = some (n % 10) := by
  cases n with
  | zero => omega
  | succ m => rfl

theorem nat_decimal_getLast (n : ℕ) :
    (nat_decimal n).data.getLast? = some (Nat.digitChar (n % 10)) := by
  unfold nat_decimal
  split
  · rename_i h; subst h; rfl
  · rename_i h
    show (((nat_digits n).map Nat.digitChar).reverse).getLast? = _
    rw [List.getLast?_reverse, List.head?_map, nat_digits_head n (by omega)]
    rfl

theorem big_to_string_getLast (b : ℤ) :
    (big_to_string b).data.getLast? = some (Nat.digitChar (b.natAbs % 10)) := by
  unfold big_to_string
  split
  · rename_i h
    show ('-' :: (nat_decimal b.natAbs).data).getLast? = _
    rw [List.getLast?_cons, nat_decimal_getLast]
    simp
  · exact nat_decimal_getLast b.natAbs

/-- C2: is_odd is true exactly when the canonical string form is empty or
its last character, read as a decimal digit, is odd. -/
theorem is_odd_iff_last_digit_odd (b : ℤ) :
    is_odd b = true ↔
      ((big_to_string b).data = [] ∨
        ∃ c, (big_to_string b).data.getLast? = some c ∧ Odd (c.toNat - Char.toNat '0')) := by
  have hlast := big_to_string_getLast b
  have hne : (big_to_string b).data ≠ [] := by
    intro hc; rw [hc] at hlast; simp at hlast
  have hlen : (big_to_string b).length ≠ 0 := by
    show (big_to_string b).data.length ≠ 0
    intro h
    exact hne (List.length_eq_zero.mp h)
  have hlc : last_char (big_to_string b) = Nat.digitChar (b.natAbs % 10) := by
    unfold last_char
    rw [List.getLastD_eq_getLast?, hlast]
    rfl
  rw [is_odd, if_pos hlen, hlc]
  simp only [hlast, hne, false_or, Option.some.injEq]
  have hiff : (∃ c, Nat.digitChar (b.natAbs % 10) = c ∧ Odd (c.toNat - Char.toNat '0')) ↔
      Odd ((Nat.digitChar (b.natAbs % 10)).toNat - Char.toNat '0') := by
    constructor
    · rintro ⟨c, rfl, hc⟩; exact hc
    · intro h; exact ⟨_, rfl, h⟩
  rw [hiff]
  have hr : b.natAbs % 10 < 10 := Nat.mod_lt _ (by norm_num)
  set r := b.natAbs % 10 with hrdef
  clear hrdef hlast hne hlen hlc hiff
  interval_cases r <;> decide

/-- The two representations of an integer value: a Compact inline word or an
Extended heap value owning a kernel integer. -/
inductive NatValue where
  | compact (n : ℤ)
  | extended (b : ℤ)
deriving DecidableEq

/-- Coercion of either representation to its kernel value, following
IntegerObject::to_bigint and BignumObject::to_bigint. -/
def NatValue.to_bigint : NatValue → ℤ
  | .compact n => n
  | .extended b => b

/-- True on the Compact representation, false on the Extended one
(the negation of is_bignum). -/
def NatValue.is_compact : NatValue → Bool
  | .compact _ => true
  | .extended _ => false

/-- Modelled from the spec: the demotion policy applied to every kernel
result of an Extended arithmetic operation; the operator bodies in
bignum_object.cpp are outside the excerpt. A result inside the Compact
range becomes Compact, otherwise a new Extended value wraps it. -/
def demote (r : ℤ) : NatValue :=
  if has_to_be_bignum r then .extended r else .compact r

/-- The arithmetic domain error raised on division by zero. -/
inductive DomainError where
  | divide_by_zero
deriving DecidableEq

/-- Modelled from the spec: BignumObject::add coerces the right operand to a
kernel value, adds in the kernel, and applies the demotion policy. -/
def bignum_add (x y : NatValue) : NatValue := demote (x.to_bigint + y.to_bigint)

/-- Modelled from the spec: BignumObject::sub, as bignum_add. -/
def bignum_sub (x y : NatValue) : NatValue := demote (x.to_bigint - y.to_bigint)

/-- Modelled from the spec: BignumObject::mul, as bignum_add. -/
def bignum_mul (x y : NatValue) : NatValue := demote (x.to_bigint * y.to_bigint)

/-- Modelled from the spec: BignumObject::negate, as bignum_add. -/
def bignum_negate (x : NatValue) : NatValue := demote (-x.to_bigint)

/-- Modelled from the spec: division through the facade; division by zero is
a domain error, otherwise the kernel floor quotient is demoted. -/
def bignum_div (x y : NatValue) : Except DomainError NatValue :=
  if y.to_bigint = 0 then .error .divide_by_zero
  else .ok (demote (x.to_bigint.fdiv y.to_bigint))

/-- Modelled from the spec: the modulus paired with floor division; carries
the sign of the divisor. -/
def bignum_mod (x y : NatValue) : Except DomainError NatValue :=
  if y.to_bigint = 0 then .error .divide_by_zero
  else .ok (demote (x.to_bigint.fmod y.to_bigint))

theorem is_compact_demote (r : ℤ) :
    (demote r).is_compact = true ↔ (MIN_INT ≤ r ∧ r ≤ MAX_INT) := by
  unfold demote
  split <;> rename_i h <;>
    simp only [has_to_be_bignum, Bool.or_eq_true, decide_eq_true_eq, MAX_INT, MIN_INT] at h ⊢ <;>
    simp [NatValue.is_compact] <;> omega

theorem to_bigint_demote (r : ℤ) : (demote r).to_bigint = r := by
  unfold demote; split <;> rfl

/-- C3: every Extended arithmetic operation demotes: the result is Compact
exactly when the kernel result fits the Compact range, and in every case the
result carries the kernel result as its value; division needs only a
nonzero divisor. -/
theorem bignum_ops_demotion (x y : ℤ) :
    ((bignum_add (.extended x) (.extended y)).is_compact = true ↔
        (MIN_INT ≤ x + y ∧ x + y ≤ MAX_INT)) ∧
    (bignum_add (.extended x) (.extended y)).to_bigint = x + y ∧
    ((bignum_sub (.extended x) (.extended y)).is_compact = true ↔
        (MIN_INT ≤ x - y ∧ x - y ≤ MAX_INT)) ∧
    (bignum_sub (.extended x) (.extended y)).to_bigint = x - y ∧
    ((bignum_mul (.extended x) (.extended y)).is_compact = true ↔
        (MIN_INT ≤ x * y ∧ x * y ≤ MAX_INT)) ∧
    (bignum_mul (.extended x) (.extended y)).to_bigint = x * y ∧
    ((bignum_negate (.extended x)).is_compact = true ↔
        (MIN_INT ≤ -x ∧ -x ≤ MAX_INT)) ∧
    (bignum_negate (.extended x)).to_bigint = -x ∧
    (y ≠ 0 → ∃ v, bignum_div (.extended x) (.extended y) = .ok v ∧
      (v.is_compact = true ↔ (MIN_INT ≤ x.fdiv y ∧ x.fdiv y ≤ MAX_INT)) ∧
      v.to_bigint = x.fdiv y) := by
  refine ⟨is_compact_demote _, to_bigint_demote _, is_compact_demote _, to_bigint_demote _,
    is_compact_demote _, to_bigint_demote _, is_compact_demote _, to_bigint_demote _,
    fun hy => ⟨demote (x.fdiv y), ?_, is_compact_demote _, to_bigint_demote _⟩⟩
  unfold bignum_div
  rw [if_neg (by simpa [NatValue.to_bigint] using hy)]
  rfl

/-- Witness for C3 at the boundary: the largest Compact value plus one. -/
theorem bignum_ops_demotion_witness :
    ((bignum_add (.extended 9223372036854775807) (.extended 1)).is_compact = true ↔
        (MIN_INT ≤ 9223372036854775807 + 1 ∧ (9223372036854775807 : ℤ) + 1 ≤ MAX_INT)) ∧
    (bignum_add (.extended 9223372036854775807) (.extended 1)).to_bigint =
        9223372036854775807 + 1 ∧
    ((bignum_sub (.extended 9223372036854775807) (.extended 1)).is_compact = true ↔
        (MIN_INT ≤ 9223372036854775807 - 1 ∧ (9223372036854775807 : ℤ) - 1 ≤ MAX_INT)) ∧
    (bignum_sub (.extended 9223372036854775807) (.extended 1)).to_bigint =
        9223372036854775807 - 1 ∧
    ((bignum_mul (.extended 9223372036854775807) (.extended 1)).is_compact = true ↔
        (MIN_INT ≤ 9223372036854775807 * 1 ∧ (9223372036854775807 : ℤ) * 1 ≤ MAX_INT)) ∧
    (bignum_mul (.extended 9223372036854775807) (.extended 1)).to_bigint =
        9223372036854775807 * 1 ∧
    ((bignum_negate (.extended 9223372036854775807)).is_compact = true ↔
        (MIN_INT ≤ -9223372036854775807 ∧ -(9223372036854775807 : ℤ) ≤ MAX_INT)) ∧
    (bignum_negate (.extended 9223372036854775807)).to_bigint = -9223372036854775807 ∧
    (∃ v, bignum_div (.extended 9223372036854775807) (.extended 1) = .ok v ∧
      (v.is_compact = true ↔
        (MIN_INT ≤ (9223372036854775807 : ℤ).fdiv 1 ∧
          (9223372036854775807 : ℤ).fdiv 1 ≤ MAX_INT)) ∧
      v.to_bigint = (9223372036854775807 : ℤ).fdiv 1) := by
  obtain ⟨h1, h2, h3, h4, h5, h6, h7, h8, h9⟩ :=
    bignum_ops_demotion 9223372036854775807 1
  exact ⟨h1, h2, h3, h4, h5, h6, h7, h8, h9 (by decide)⟩

/-- C4: dividing any value, in either representation, by a zero divisor in
either representation yields the domain error and never a numeric result. -/
theorem div_by_zero_domain_error (a : NatValue) :
    bignum_div a (.compact 0) = .error .divide_by_zero ∧
    bignum_div a (.extended 0) = .error .divide_by_zero ∧
    (∀ v, bignum_div a (.compact 0) ≠ .ok v) ∧
    (∀ v, bignum_div a (.extended 0) ≠ .ok v) := by
  refine ⟨rfl, rfl, ?_, ?_⟩ <;> intro v h <;> simp [bignum_div, NatValue.to_bigint] at h

theorem fdiv_neg_neg (a b : ℤ) : (-a).fdiv (-b) = a.fdiv b := by
  cases a with
  | ofNat m =>
    cases m with
    | zero => simp
    | succ m =>
      cases b with
      | ofNat n =>
        cases n with
        | zero =>
          show (-(Int.ofNat (m + 1))).fdiv (-(0 : ℤ)) = (Int.ofNat (m + 1)).fdiv 0
          rw [neg_zero, Int.fdiv_zero, Int.fdiv_zero]
        | succ n => rfl
      | negSucc n => rfl
  | negSucc m =>
    cases b with
    | ofNat n =>
      cases n with
      | zero =>
        show (-(Int.negSucc m)).fdiv (-(0 : ℤ)) = (Int.negSucc m).fdiv 0
        rw [neg_zero, Int.fdiv_zero, Int.fdiv_zero]
      | succ n => rfl
    | negSucc n => rfl

theorem fmod_bounds_neg (a : ℤ) {b : ℤ} (hb : b < 0) :
    b < a.fmod b ∧ a.fmod b ≤ 0 := by
  have h1 := Int.fdiv_add_fmod a b
  have h2 := Int.fdiv_add_fmod (-a) (-b)
  have h3 : (-a).fdiv (-b) = a.fdiv b := fdiv_neg_neg a b
  have h4 : 0 ≤ (-a).fmod (-b) := Int.fmod_nonneg' (-a) (by omega)
  have h5 : (-a).fmod (-b) < -b := Int.fmod_lt_of_pos (-a) (by omega)
  rw [h3, neg_mul] at h2
  omega

/-- C7: for a nonzero divisor in either representation, division and modulus
succeed, the floor-division identity holds on the carried kernel values, and
the remainder lies in the half-open interval on the divisor side of zero,
which is exactly floor rounding with the modulus carrying the divisor sign. -/
theorem div_mod_floor_identity (a b : NatValue) (hb : b.to_bigint ≠ 0) :
    ∃ q r, bignum_div a b = .ok q ∧ bignum_mod a b = .ok r ∧
      a.to_bigint = q.to_bigint * b.to_bigint + r.to_bigint ∧
      (0 < b.to_bigint → 0 ≤ r.to_bigint ∧ r.to_bigint < b.to_bigint) ∧
      (b.to_bigint < 0 → b.to_bigint < r.to_bigint ∧ r.to_bigint ≤ 0) := by
  refine ⟨demote (a.to_bigint.fdiv b.to_bigint), demote (a.to_bigint.fmod b.to_bigint),
    by rw [bignum_div, if_neg hb], by rw [bignum_mod, if_neg hb], ?_, ?_, ?_⟩
  · rw [to_bigint_demote, to_bigint_demote]
    have h := Int.fdiv_add_fmod a.to_bigint b.to_bigint
    rw [Int.mul_comm] at h
    omega
  · intro hpos
    rw [to_bigint_demote]
    exact ⟨Int.fmod_nonneg' _ hpos, Int.fmod_lt_of_pos _ hpos⟩
  · intro hneg
    rw [to_bigint_demote]
    exact fmod_bounds_neg _ hneg

/-- Witness for C7 at the concrete scenario of the spec: -7 divided by 2. -/
theorem div_mod_floor_identity_witness :
    ∃ q r, bignum_div (.compact (-7)) (.compact 2) = .ok q ∧
      bignum_mod (.compact (-7)) (.compact 2) = .ok r ∧
      (NatValue.compact (-7)).to_bigint =
        q.to_bigint * (NatValue.compact 2).to_bigint + r.to_bigint ∧
      (0 < (NatValue.compact 2).to_bigint →
        0 ≤ r.to_bigint ∧ r.to_bigint < (NatValue.compact 2).to_bigint) ∧
      ((NatValue.compact 2).to_bigint < 0 →
        (NatValue.compact 2).to_bigint < r.to_bigint ∧ r.to_bigint ≤ 0) :=
  div_mod_floor_identity (.compact (-7)) (.compact 2) (by decide)

/-- State of a BignumObject as seen by the destructor: the owned kernel
pointer (none models a null m_bigint) and a count of how many times the
kernel value has been released. -/
structure BignumState where
  m_bigint : Option ℤ
  released : ℕ
deriving DecidableEq

/-- Embedding of the destructor body: if m_bigint is non-null, delete the
kernel value. The code does not clear the pointer field afterwards. -/
def bignum_destroy (s : BignumState) : BignumState :=
  if s.m_bigint.isSome then { s with released := s.released + 1 } else s

/-- C5 counterexample: running the destructor twice on an object owning a
kernel value releases that value twice, because the pointer stays non-null
after the first release; the routine is not idempotent. -/
theorem bignum_destroy_not_idempotent :
    bignum_destroy (bignum_destroy ⟨some 5, 0⟩) = ⟨some 5, 2⟩ := rfl

/-- C5 amended: each destructor invocation releases the owned kernel value
exactly once when the pointer is non-null and leaves the pointer unchanged;
a null pointer is left untouched. -/
theorem bignum_destroy_releases_once_per_call (s : BignumState) :
    (s.m_bigint.isSome = true → bignum_destroy s = ⟨s.m_bigint, s.released + 1⟩) ∧
    (s.m_bigint = none → bignum_destroy s = s) := by
  constructor
  · intro h
    simp [bignum_destroy, h]
  · intro h
    simp [bignum_destroy, h]

/-- Witness for the amended C5 on an object owning the kernel value 5. -/
theorem bignum_destroy_releases_once_per_call_witness :
    (some (5 : ℤ)).isSome = true ∧
    bignum_destroy ⟨some 5, 0⟩ = ⟨some 5, 1⟩ :=
  ⟨rfl, (bignum_destroy_releases_once_per_call ⟨some 5, 0⟩).1 rfl⟩

/-- Kernel heap model for the aliasing claims: a list of kernel integer
cells; a pointer is an index into the list. -/
abbrev KernelHeap := List ℤ

/-- Embedding of BignumObject(const BigInt &other) over the heap model: the
member initializer new BigInt(other) reads the source cell and allocates a
fresh cell holding an equal value; the result is the extended heap and the
fresh pointer. -/
def bignum_from_bigint_alloc (h : KernelHeap) (p : ℕ) : KernelHeap × ℕ :=
  (h ++ [h.getD p 0], h.length)

/-- C6: constructing an Extended value from a kernel value allocates a fresh
cell distinct from the source and from every previously existing cell, the
fresh cell holds an equal value, and mutating the source cell afterwards
does not change the constructed value. -/
theorem bignum_construction_never_aliases (h : KernelHeap) (p : ℕ) (hp : p < h.length) :
    (bignum_from_bigint_alloc h p).2 ≠ p ∧
    (∀ r, r < h.length → (bignum_from_bigint_alloc h p).2 ≠ r) ∧
    ((bignum_from_bigint_alloc h p).1).getD (bignum_from_bigint_alloc h p).2 0 = h.getD p 0 ∧
    (∀ w, (((bignum_from_bigint_alloc h p).1).set p w).getD
        (bignum_from_bigint_alloc h p).2 0 = h.getD p 0) := by
  refine ⟨by simp [bignum_from_bigint_alloc]; omega,
    fun r hr => by simp [bignum_from_bigint_alloc]; omega, ?_, ?_⟩
  · simp [bignum_from_bigint_alloc, List.getD]
  · intro w
    show ((h ++ [h.getD p 0]).set p w).getD h.length 0 = h.getD p 0
    have hne : p ≠ h.length := by omega
    rw [List.getD, List.get?_eq_getElem?, List.getElem?_set_ne hne]
    simp [List.getElem?_append_right]

/-- Witness for C6 on a one-cell heap holding the kernel value 5. -/
theorem bignum_construction_never_aliases_witness :
    (bignum_from_bigint_alloc [5] 0).2 ≠ 0 ∧
    (∀ r, r < ([5] : KernelHeap).length → (bignum_from_bigint_alloc [5] 0).2 ≠ r) ∧
    ((bignum_from_bigint_alloc [5] 0).1).getD (bignum_from_bigint_alloc [5] 0).2 0 =
      ([5] : KernelHeap).getD 0 0 ∧
    (∀ w, (((bignum_from_bigint_alloc [5] 0).1).set 0 w).getD
        (bignum_from_bigint_alloc [5] 0).2 0 = ([5] : KernelHeap).getD 0 0) :=
  bignum_construction_never_aliases [5] 0 (by decide)

/-- A runtime exception object, as caught by the top-level handler. -/
structure ExceptionObject where
  message : String
deriving DecidableEq

/-- A runtime object pointer target; nil models NilObject. -/
inductive RObject where
  | nil
  | obj (id : ℕ)
deriving DecidableEq

/-- Outcome of the EVAL wrapper: whether the handler reported an exception,
and the returned object (none models a null pointer). -/
structure TopLevelResult where
  reported : Bool
  result : Option RObject
deriving DecidableEq

/-- Embedding of EVAL in main.cpp: a body completing normally returns
NilObject; a thrown ExceptionObject is caught, handled by
handle_top_level_exception, and nullptr is returned. -/
def EVAL (body : Except ExceptionObject RObject) : TopLevelResult :=
  match body with
  | .ok _ => ⟨false, some .nil⟩
  | .error _ => ⟨true, none⟩

/-- Embedding of main in main.cpp: the exit code is 0 when _main, which
returns the EVAL result, yields a non-null value and 1 otherwise. -/
def main_exit_code (body : Except ExceptionObject RObject) : ℕ :=
  if ((EVAL body).result).isSome then 0 else 1

/-- C9: an exception raised by the body is reported and the process exits
with code 1; a body that completes without an exception exits with code 0. -/
theorem top_level_exception_exit_code (body : Except ExceptionObject RObject) :
    (∀ e, body = .error e → (EVAL body).reported = true ∧ main_exit_code body = 1) ∧
    (∀ v, body = .ok v → main_exit_code body = 0) := by
  cases body <;> simp [EVAL, main_exit_code]

/-- Witness for C9 on a division-by-zero exception and a normal run. -/
theorem top_level_exception_exit_code_witness :
    ((EVAL (.error ⟨"divided by 0"⟩)).reported = true ∧
      main_exit_code (.error ⟨"divided by 0"⟩) = 1) ∧
    main_exit_code (.ok .nil) = 0 :=
  ⟨(top_level_exception_exit_code (.error ⟨"divided by 0"⟩)).1 ⟨"divided by 0"⟩ rfl,
    (top_level_exception_exit_code (.ok .nil)).2 .nil rfl⟩

/-- A freshly constructed BignumObject: the inherited IntegerObject compact
slot and the owned kernel value. -/
structure BignumObject where
  integer : ℤ
  m_bigint : ℤ
deriving DecidableEq

/-- Modelled from the spec: BigInt construction from a numeral string; the
kernel parser is outside the excerpt, so only the resulting value is kept. -/
def big_int_of_string (s : String) : ℤ := (s.toInt?).getD 0

/-- Modelled from the spec: BigInt construction from a double truncates
toward zero; the double is modelled as a rational number. -/
def big_int_of_double (d : ℚ) : ℤ := d.num.tdiv (d.den : ℤ)

/-- Embedding of BignumObject(const String &): initializes the inherited
IntegerObject with -1 and the kernel value parsed from the numeral. -/
def bignum_of_string (s : String) : BignumObject := ⟨-1, big_int_of_string s⟩

/-- Embedding of BignumObject(const BigInt &): initializes the inherited
IntegerObject with -1 and a copy of the kernel value. -/
def bignum_of_bigint (b : ℤ) : BignumObject := ⟨-1, b⟩

/-- Embedding of BignumObject(const double &): initializes the inherited
IntegerObject with -1 and the truncated kernel value. -/
def bignum_of_double (d : ℚ) : BignumObject := ⟨-1, big_int_of_double d⟩

/-- C10: every construction path sets the inherited compact slot to the
sentinel -1, and the kernel value alone carries the mathematical value. -/
theorem bignum_constructors_sentinel (s : String) (b : ℤ) (d : ℚ) :
    (bignum_of_string s).integer = -1 ∧
    (bignum_of_bigint b).integer = -1 ∧
    (bignum_of_double d).integer = -1 ∧
    (bignum_of_bigint b).m_bigint = b :=
  ⟨rfl, rfl, rfl, rfl⟩

end Natalie
